import Mathlib

/-!
Verification development for the job-posting-aggregator repository.

The backend subsystem (scheduler, CSV snapshot store, collection history,
field extractor) is described by the specification; the frontend TypeScript
sources are present.  Components whose backend source is not part of this
snapshot are modelled from the specification text, as marked on each
definition; the frontend error-handler hook is embedded from its source.
-/

namespace JobAgg

/-! ## Schedule configuration store (claim C7) -/

/-- Modelled from the spec: `ScheduleConfig` record (backend `api.py` /
config store is not under `src/`): `intervalHours` with fixed bounds
`minInterval`, `maxInterval`. -/
structure ScheduleConfig where
  intervalHours : Int
  minInterval : Int
  maxInterval : Int
deriving DecidableEq, Repr

inductive ConfigError
  | OutOfRange
deriving DecidableEq, Repr

/-- Modelled from the spec: backend config update operation (not under
`src/`): fails with `OutOfRange` if the new value lies outside
`[minInterval, maxInterval]`, otherwise stores it. -/
def updateScheduleConfig (cfg : ScheduleConfig) (v : Int) :
    Except ConfigError ScheduleConfig :=
  if cfg.minInterval ≤ v ∧ v ≤ cfg.maxInterval then
    .ok { cfg with intervalHours := v }
  else
    .error .OutOfRange

/-- The configuration visible to a subsequent read: the updated record on
success, the prior record when the update was rejected. -/
def configAfterUpdate (cfg : ScheduleConfig) (v : Int) : ScheduleConfig :=
  match updateScheduleConfig cfg v with
  | .ok c => c
  | .error _ => cfg

def ScheduleConfig.invariant (cfg : ScheduleConfig) : Prop :=
  cfg.minInterval ≤ cfg.intervalHours ∧ cfg.intervalHours ≤ cfg.maxInterval

instance (cfg : ScheduleConfig) : Decidable cfg.invariant := by
  unfold ScheduleConfig.invariant; infer_instance

/-! ## Frontend error handler hook (claim C10), embedded from
`frontend/src/hooks/useErrorHandler.ts`. -/

inductive ErrType
  | error
  | warning
  | info
deriving DecidableEq, Repr

/-- `AppError` from `useErrorHandler.ts`: message, type, optional id. -/
structure AppError where
  message : String
  type : ErrType
  id : Option String
deriving DecidableEq, Repr

/-- `addError` accepts `AppError | string`. -/
inductive ErrInput
  | str (s : String)
  | err (e : AppError)
deriving DecidableEq, Repr

/-- The normalisation at the top of `addError`: a plain string becomes an
`AppError` of type `"error"` with no id. -/
def toAppError : ErrInput → AppError
  | .str s => ⟨s, .error, none⟩
  | .err e => e

/-- `const id = appError.id || Date.now().toString()`: JavaScript `||`
falls through to the timestamp when the id is `undefined` or the empty
string (both falsy). -/
def chosenId (e : AppError) (now : String) : String :=
  match e.id with
  | none => now
  | some s => if s = "" then now else s

/-- `setErrors((prev) => [...prev, { ...appError, id }])`. -/
def addError (input : ErrInput) (now : String) (prev : List AppError) :
    List AppError :=
  let e := toAppError input
  prev ++ [{ e with id := some (chosenId e now) }]

/-- The filter used both by the 5-second auto-dismiss callback and by
`removeError`: `prev.filter((e) => e.id !== id)`. -/
def removeById (id : String) (errors : List AppError) : List AppError :=
  errors.filter (fun e => e.id ≠ some id)

/-! ## Canonical snapshot filename pattern (claims C2, C5, C6) -/

/-- One element of the filename pattern: a literal character or a digit
position. -/
inductive PatElem
  | lit (c : Char)
  | digit
deriving DecidableEq, Repr

/-- Whether a character satisfies a pattern element. -/
def patElemOk : PatElem → Char → Bool
  | .lit c, x => x = c
  | .digit, x => x.isDigit

/-- Full anchored match of a character list against a pattern list. -/
def matchPat : List PatElem → List Char → Bool
  | [], [] => true
  | p :: ps, x :: xs => patElemOk p x && matchPat ps xs
  | _, _ => false

/-- The exact pattern `jobs_collection_\d\x7b8\x7d_\d\x7b6\x7d\.csv` used to
validate snapshot filenames. -/
def snapshotPat : List PatElem :=
  ("jobs_collection_".toList.map .lit) ++ List.replicate 8 .digit ++
    [.lit '_'] ++ List.replicate 6 .digit ++ (".csv".toList.map .lit)

/-- Modelled from the spec: strict filename validation against the exact
pattern (backend `api.py` validation is not under `src/`). -/
def matchesSnapshotPattern (s : String) : Bool :=
  matchPat snapshotPat s.toList

/-! ## Path resolution for snapshot download (claim C2) -/

inductive ResolveError
  | InvalidFilename
  | Forbidden
deriving DecidableEq, Repr

/-- A filesystem path as a list of components (each a character list). -/
abbrev Path := List (List Char)

/-- Split a character list on `/` separators. -/
def splitSlash : List Char → List (List Char)
  | [] => [[]]
  | c :: rest =>
    if c = '/' then [] :: splitSlash rest
    else
      match splitSlash rest with
      | [] => [[c]]
      | g :: gs => (c :: g) :: gs

/-- One step of lexical path normalisation: `.` and empty components are
dropped, `..` pops the last component, anything else is pushed. -/
def normStep (stack : Path) (comp : List Char) : Path :=
  if comp = [] ∨ comp = ['.'] then stack
  else if comp = ['.', '.'] then stack.dropLast
  else stack ++ [comp]

/-- Resolve a relative component list against a root path. -/
def resolvePath (root : Path) (comps : List (List Char)) : Path :=
  comps.foldl normStep root

/-- Modelled from the spec: `resolve(filename)` of the CSV snapshot store
(backend `api.py` lines 119-133 are not under `src/`): reject any filename
failing the exact pattern with `InvalidFilename` before touching the
filesystem; otherwise resolve the path against the storage root and fail
with `Forbidden` unless the result is a strict descendant of the root. -/
def resolve (root : Path) (filename : String) : Except ResolveError Path :=
  if matchesSnapshotPattern filename then
    let p := resolvePath root (splitSlash filename.toList)
    if root <+: p ∧ root.length < p.length then .ok p
    else .error .Forbidden
  else .error .InvalidFilename

/-! ## Retention policy (claim C6) -/

/-- Snapshot metadata: filename, the timestamp embedded in the filename
(in days, as used by the retention policy), and the rows stored. -/
structure JobRecord where
  title : String
  company : String
  location : String
  url : String
  description : String
  diplomaRequired : Option String
  yearsExperience : Option String
  keyword : String
deriving DecidableEq, Repr

structure Snapshot where
  name : String
  ts : Nat
  rows : List JobRecord
deriving DecidableEq, Repr

/-- A snapshot is beyond the file-count cap when at least `maxFiles`
snapshots in the store carry a strictly newer embedded timestamp. -/
def beyondCap (files : List Snapshot) (maxFiles : Nat) (f : Snapshot) : Bool :=
  maxFiles ≤ (files.filter (fun g => f.ts < g.ts)).length

/-- A snapshot is too old when its embedded timestamp is more than
`maxAgeDays` before `now`. -/
def tooOld (now maxAgeDays : Nat) (f : Snapshot) : Bool :=
  maxAgeDays < now - f.ts

/-- Modelled from the spec: `applyRetention(maxFiles, maxAgeDays)` of the
snapshot store (backend `storage.py` lines 176-220 are not under `src/`):
a file is deleted exactly when it is beyond the newest `maxFiles` by
embedded timestamp or older than `maxAgeDays`; the two conditions are
OR'd. -/
def applyRetention (maxFiles maxAgeDays now : Nat) (files : List Snapshot) :
    List Snapshot :=
  files.filter (fun f => !(beyondCap files maxFiles f || tooOld now maxAgeDays f))

/-! ## Collection scheduler / coordinator (claims C1, C3, C4) -/

/-- Modelled from the spec: `CollectionRunState` (backend `scheduler.py`
is not under `src/`): last/next collection timestamps and the
mutual-exclusion flag. -/
structure RunState where
  lastTs : Option Nat
  nextTs : Nat
  inProgress : Bool
deriving DecidableEq, Repr

/-- Modelled from the spec: the atomic test-and-set on
`collectionInProgress` — the check of the flag and its setting happen as
one step; the returned boolean says whether the caller acquired the
critical section. -/
def tryAcquire (r : RunState) : Bool × RunState :=
  if r.inProgress then (false, r)
  else (true, { r with inProgress := true })

inductive KwResult
  | ok (count : Nat)
  | err (msg : String)
deriving DecidableEq, Repr

inductive CycleStatus
  | success
  | partial_
  | failure
deriving DecidableEq, Repr

/-- Modelled from the spec: one `CollectionHistoryEntry` (backend
`collection_history.py` is not under `src/`). -/
structure HistoryEntry where
  status : CycleStatus
  totalJobs : Nat
  perKeyword : List (String × KwResult)
  filename : Option String
deriving DecidableEq, Repr

inductive CycleError
  | AlreadyRunning
  | StorageFailure (msg : String)
deriving DecidableEq, Repr

structure CycleResult where
  total : Nat
  perKeyword : List (String × KwResult)
deriving DecidableEq, Repr

/-- Whole-system state seen by the coordinator: run state, snapshot files
on disk, history log. -/
structure SysState where
  run : RunState
  files : List Snapshot
  history : List HistoryEntry
deriving DecidableEq, Repr

/-- A connector is an opaque fallible function from keyword to records. -/
abbrev Connector := String → Except String (List JobRecord)

/-- A storage writer either persists the records under a fresh canonical
filename (returning the name and its embedded timestamp) or fails. -/
abbrev Writer := List JobRecord → Except String (String × Nat)

/-- Modelled from the spec: per-keyword step of a cycle — a connector
failure is caught, an empty result substituted and the error recorded, so
one keyword never aborts the cycle. -/
def collectOne (conn : Connector) (kw : String) :
    (String × KwResult) × List JobRecord :=
  match conn kw with
  | .ok recs => ((kw, .ok recs.length), recs)
  | .error m => ((kw, .err m), [])

/-- All records gathered across the keyword list in one cycle. -/
def cycleRecords (conn : Connector) (kws : List String) : List JobRecord :=
  (kws.map (fun kw => (collectOne conn kw).2)).flatten

/-- The per-keyword outcome list of one cycle. -/
def cycleOutcomes (conn : Connector) (kws : List String) :
    List (String × KwResult) :=
  kws.map (fun kw => (collectOne conn kw).1)

/-- Whether any keyword of the cycle failed. -/
def anyKwError (outs : List (String × KwResult)) : Bool :=
  outs.any (fun p => match p.2 with | .err _ => true | .ok _ => false)

/-- The history log is a bounded ring keeping the most recent 100
entries. -/
def boundHistory (l : List HistoryEntry) : List HistoryEntry :=
  l.drop (l.length - 100)

/-- Modelled from the spec: `runCycle` of the coordinator (backend
`scheduler.py` lines 87-158 are not under `src/`).  Steps: atomic
test-and-set of `collectionInProgress` (fail with `AlreadyRunning` when
held); per-keyword collection with per-keyword error recovery; one atomic
snapshot write when at least one record was produced; retention sweep;
history entry; timestamp update; guaranteed release of the flag on every
path, including storage failure, which is fatal to the cycle (history
records overall failure, no partial file persists). -/
def runCycle (conn : Connector) (write : Writer) (kws : List String)
    (now intervalH maxFiles maxAge : Nat) (s : SysState) :
    Except CycleError CycleResult × SysState :=
  match tryAcquire s.run with
  | (false, _) => (.error .AlreadyRunning, s)
  | (true, _) =>
    let outs := cycleOutcomes conn kws
    let recs := cycleRecords conn kws
    let status := if anyKwError outs then CycleStatus.partial_
                  else CycleStatus.success
    if recs.isEmpty then
      (.ok ⟨0, outs⟩,
       { run := { lastTs := some now, nextTs := now + intervalH,
                  inProgress := false },
         files := applyRetention maxFiles maxAge now s.files,
         history := boundHistory (s.history ++
           [⟨status, 0, outs, none⟩]) })
    else
      match write recs with
      | .ok (fname, ts) =>
        (.ok ⟨recs.length, outs⟩,
         { run := { lastTs := some now, nextTs := now + intervalH,
                    inProgress := false },
           files := applyRetention maxFiles maxAge now
             (s.files ++ [⟨fname, ts, recs⟩]),
           history := boundHistory (s.history ++
             [⟨status, recs.length, outs, some fname⟩]) })
      | .error m =>
        (.error (.StorageFailure m),
         { run := { s.run with inProgress := false },
           files := s.files,
           history := boundHistory (s.history ++
             [⟨.failure, 0, outs, none⟩]) })

/-! ## Atomic snapshot publish (claim C5) -/

/-- A raw directory entry: any named file with its current contents. -/
structure RawFile where
  name : String
  content : List JobRecord
deriving DecidableEq, Repr

/-- What a concurrent reader observes when listing the storage directory:
only entries whose name matches the canonical snapshot pattern are
served. -/
def visible (d : List RawFile) : List RawFile :=
  d.filter (fun f => matchesSnapshotPattern f.name)

/-- The temporary name used while writing, in the same directory. -/
def tmpName (finalName : String) : String := finalName ++ ".tmp"

/-- Modelled from the spec: the sequence of directory states during one
atomic snapshot publish (backend `storage.py` write is not under `src/`):
the temporary file grows row by row under the temporary name, then a
single rename replaces it by the complete file under its final name. -/
def writeStates (d : List RawFile) (finalName : String)
    (rows : List JobRecord) : List (List RawFile) :=
  [d] ++
    (List.range (rows.length + 1)).map
      (fun k => d ++ [⟨tmpName finalName, rows.take k⟩]) ++
    [d ++ [⟨finalName, rows⟩]]

/-! ## CSV preview (claim C8) -/

def csvHeaders : List String :=
  ["keyword", "title", "company", "location", "diploma_required",
   "years_experience", "url", "description"]

def recordRow (r : JobRecord) : List String :=
  [r.keyword, r.title, r.company, r.location,
   r.diplomaRequired.getD "", r.yearsExperience.getD "",
   r.url, r.description]

/-- Modelled from the spec: the CSV content written for a snapshot — a
header row followed by one row per record (backend `storage.py` is not
under `src/`). -/
def writeCsv (records : List JobRecord) : List (List String) :=
  csvHeaders :: records.map recordRow

structure Preview where
  headers : List String
  rows : List (List String)
  totalRows : Nat
  hasMore : Bool
deriving DecidableEq, Repr

/-- Modelled from the spec: `preview(filename, maxRows)` (backend
`api.py` preview endpoint is not under `src/`): parses the CSV and
returns only the first `maxRows` records plus a truncation flag. -/
def previewCsv (content : List (List String)) (maxRows : Nat) : Preview :=
  match content with
  | [] => ⟨[], [], 0, false⟩
  | hdr :: dataRows =>
    ⟨hdr, dataRows.take maxRows, dataRows.length,
     decide (maxRows < dataRows.length)⟩

/-! ## Field extractor (claim C9) -/

def lowerList (s : String) : List Char := s.toList.map Char.toLower

/-- Substring containment over character lists. -/
def containsSub (needle : List Char) : List Char → Bool
  | [] => needle.isPrefixOf []
  | c :: rest => needle.isPrefixOf (c :: rest) || containsSub needle rest

/-- Modelled from the spec and the README pattern table: the ordered
education rules, most-specific first (`serpapi_connector.py` is not under
`src/`).  Each rule maps a set of lowercase trigger substrings to a
canonical label. -/
def eduRules : List (List String × String) :=
  [ (["phd", "doctorate"], "PhD"),
    (["master"], "Master\x27s Degree"),
    (["bachelor"], "Bachelor\x27s Degree"),
    (["associate"], "Associate\x27s Degree"),
    (["high school"], "High School Diploma") ]

def ruleMatches (desc : String) (rule : List String × String) : Bool :=
  rule.1.any (fun pat => containsSub pat.toList (lowerList desc))

/-- First matching rule wins; no match leaves the field unset. -/
def extractEducation (desc : String) : Option String :=
  (eduRules.find? (ruleMatches desc)).map Prod.snd

/-- Longest digit run at the head of the list, with the remainder. -/
def takeDigits : List Char → List Char × List Char
  | [] => ([], [])
  | c :: rest =>
    if c.isDigit then
      let (d, r) := takeDigits rest
      (c :: d, r)
    else ([], c :: rest)

/-- The range form `N-M years`, matched at the head of the list. -/
def matchRangeAt (cs : List Char) : Option String :=
  let (d1, r1) := takeDigits cs
  if d1.isEmpty then none else
  match r1 with
  | '-' :: r2 =>
    let (d2, r3) := takeDigits r2
    if d2.isEmpty then none
    else if " years".toList.isPrefixOf r3 then
      some (String.mk (d1 ++ '-' :: d2) ++ " years")
    else none
  | _ => none

/-- The `N+ years` form, matched at the head of the list. -/
def matchPlusAt (cs : List Char) : Option String :=
  let (d1, r1) := takeDigits cs
  if d1.isEmpty then none else
  match r1 with
  | '+' :: r2 =>
    if " years".toList.isPrefixOf r2 then some (String.mk d1 ++ "+ years")
    else none
  | _ => none

/-- A qualifier form (`minimum of N years`, `at least N years`),
normalised to `N+ years`, matched at the head of the list. -/
def matchQualAt (qual : List Char) (cs : List Char) : Option String :=
  if qual.isPrefixOf cs then
    let rest := cs.drop qual.length
    let (d1, r1) := takeDigits rest
    if d1.isEmpty then none
    else if " years".toList.isPrefixOf r1 then some (String.mk d1 ++ "+ years")
    else none
  else none

/-- Scan left to right for the first position where a head-anchored
matcher succeeds. -/
def scanFor (f : List Char → Option String) : List Char → Option String
  | [] => f []
  | c :: rest =>
    match f (c :: rest) with
    | some r => some r
    | none => scanFor f rest

/-- Modelled from the spec and the README pattern table: experience
extraction — the range form first, then `N+ years`, then the qualifier
forms normalised to `N+ years`; no match leaves the field unset. -/
def extractExperience (desc : String) : Option String :=
  let low := lowerList desc
  match scanFor matchRangeAt low with
  | some r => some r
  | none =>
    match scanFor matchPlusAt low with
    | some r => some r
    | none =>
      match scanFor (matchQualAt "minimum of ".toList) low with
      | some r => some r
      | none => scanFor (matchQualAt "at least ".toList) low

/-- The field extractor: a pure function from the free-text description
to the two optional derived fields. -/
def fieldExtract (desc : String) : Option String × Option String :=
  (extractEducation desc, extractExperience desc)

/-! ## Helper lemmas -/

theorem matchPat_length (ps : List PatElem) (cs : List Char)
    (h : matchPat ps cs = true) : cs.length = ps.length := by
  induction ps generalizing cs with
  | nil =>
    cases cs with
    | nil => rfl
    | cons c cs => simp [matchPat] at h
  | cons p ps ih =>
    cases cs with
    | nil => simp [matchPat] at h
    | cons c cs =>
      simp only [matchPat, Bool.and_eq_true] at h
      simp [ih cs h.2]

theorem matchPat_mem (ps : List PatElem) (cs : List Char)
    (h : matchPat ps cs = true) {c : Char} (hc : c ∈ cs) :
    ∃ p ∈ ps, patElemOk p c = true := by
  induction ps generalizing cs with
  | nil =>
    cases cs with
    | nil => simp at hc
    | cons x xs => simp [matchPat] at h
  | cons p ps ih =>
    cases cs with
    | nil => simp [matchPat] at h
    | cons x xs =>
      simp only [matchPat, Bool.and_eq_true] at h
      rcases List.mem_cons.mp hc with rfl | hx
      · exact ⟨p, List.mem_cons_self _ _, h.1⟩
      · obtain ⟨q, hq, hqc⟩ := ih xs h.2 hx
        exact ⟨q, List.mem_cons_of_mem _ hq, hqc⟩

theorem snapshotPat_no_slash : ∀ p ∈ snapshotPat, patElemOk p '/' = false := by
  decide

theorem snapshotPat_length_eq : snapshotPat.length = 35 := by decide

theorem matchesSnapshotPattern_no_slash (s : String)
    (h : matchesSnapshotPattern s = true) : '/' ∉ s.toList := by
  intro hc
  obtain ⟨p, hp, hpc⟩ := matchPat_mem snapshotPat s.toList h hc
  rw [snapshotPat_no_slash p hp] at hpc
  exact Bool.false_ne_true hpc

theorem splitSlash_of_no_slash (cs : List Char) (h : '/' ∉ cs) :
    splitSlash cs = [cs] := by
  induction cs with
  | nil => rfl
  | cons c rest ih =>
    have hc : ¬(c = '/') := fun e => h (e ▸ List.mem_cons_self _ _)
    have hr : '/' ∉ rest := fun e => h (List.mem_cons_of_mem _ e)
    simp [splitSlash, hc, ih hr]

theorem boundHistory_getLast? (l : List HistoryEntry) (e : HistoryEntry) :
    (boundHistory (l ++ [e])).getLast? = some e := by
  unfold boundHistory
  rw [List.length_append,
      List.drop_append_of_le_length (by simp only [List.length_singleton]; omega),
      List.getLast?_concat]

theorem collectOne_fst (conn : Connector) (kw : String) :
    (collectOne conn kw).1.1 = kw := by
  unfold collectOne
  cases conn kw <;> rfl

theorem cycleOutcomes_keywords (conn : Connector) (kws : List String) :
    (cycleOutcomes conn kws).map Prod.fst = kws := by
  induction kws with
  | nil => rfl
  | cons kw rest ih =>
    simp only [cycleOutcomes, List.map_cons] at ih ⊢
    rw [collectOne_fst, ih]

/-! ## Claim theorems -/

/-- C7: the schedule-configuration invariant
`minInterval ≤ intervalHours ≤ maxInterval` holds after every update;
an out-of-range update fails with `OutOfRange` and retains the prior
value; in particular updating to 0 with `minInterval = 1` fails and the
prior configuration is still read afterwards. -/
theorem scheduleConfig_update_invariant :
    (∀ (cfg : ScheduleConfig) (v : Int),
       cfg.invariant → (configAfterUpdate cfg v).invariant) ∧
    (∀ (cfg : ScheduleConfig) (v : Int),
       ¬(cfg.minInterval ≤ v ∧ v ≤ cfg.maxInterval) →
       updateScheduleConfig cfg v = .error .OutOfRange ∧
         configAfterUpdate cfg v = cfg) ∧
    (updateScheduleConfig ⟨12, 1, 336⟩ 0 = .error .OutOfRange ∧
       configAfterUpdate ⟨12, 1, 336⟩ 0 = ⟨12, 1, 336⟩) := by
  refine ⟨fun cfg v hinv => ?_, fun cfg v hv => ?_, ⟨rfl, rfl⟩⟩
  · by_cases h : cfg.minInterval ≤ v ∧ v ≤ cfg.maxInterval
    · simp [configAfterUpdate, updateScheduleConfig, h,
        ScheduleConfig.invariant]
    · simpa [configAfterUpdate, updateScheduleConfig, h,
        ScheduleConfig.invariant] using hinv
  · constructor
    · simp [updateScheduleConfig, hv]
    · simp [configAfterUpdate, updateScheduleConfig, hv]

/-- Witness for C7: the invariant theorem applied at a concrete
configuration and at the out-of-range update of the claim. -/
theorem scheduleConfig_update_invariant_witness :
    (⟨12, 1, 336⟩ : ScheduleConfig).invariant ∧
    (configAfterUpdate ⟨12, 1, 336⟩ 0).invariant ∧
    (updateScheduleConfig ⟨12, 1, 336⟩ 0 = .error .OutOfRange ∧
       configAfterUpdate ⟨12, 1, 336⟩ 0 = ⟨12, 1, 336⟩) :=
  ⟨by decide,
   scheduleConfig_update_invariant.1 ⟨12, 1, 336⟩ 0 (by decide),
   scheduleConfig_update_invariant.2.1 ⟨12, 1, 336⟩ 0 (by decide)⟩

/-- C10 counterexample: an `addError` call supplying the explicit id `""`
appends an entry whose id is the timestamp, not the caller-supplied id —
JavaScript `appError.id || Date.now().toString()` treats the empty string
as absent — refuting the claim that the caller-supplied id is used
whenever one is supplied. -/
theorem addError_suppliedEmptyId_counterexample :
    addError (.err ⟨"m", .error, some ""⟩) "1700" [] =
      [⟨"m", .error, some "1700"⟩] ∧
    addError (.err ⟨"m", .error, some ""⟩) "1700" [] ≠
      [⟨"m", .error, some ""⟩] := by
  decide

/-- C10 (amended): `addError` appends exactly one entry, whose id is the
caller-supplied id when that id is present and non-empty and the current
timestamp otherwise, leaving every previous entry unchanged; the
auto-dismiss callback and `removeError` remove exactly the entries whose
id equals the given id. -/
theorem useErrorHandler_spec :
    (∀ (input : ErrInput) (now : String) (prev : List AppError),
       addError input now prev =
         prev ++ [{ toAppError input with
                    id := some (chosenId (toAppError input) now) }]) ∧
    (∀ (m : String) (t : ErrType) (now : String),
       chosenId ⟨m, t, none⟩ now = now) ∧
    (∀ (m : String) (t : ErrType) (s now : String),
       s ≠ "" → chosenId ⟨m, t, some s⟩ now = s) ∧
    (∀ (id : String) (l : List AppError) (e : AppError),
       e ∈ removeById id l ↔ e ∈ l ∧ e.id ≠ some id) := by
  refine ⟨fun input now prev => rfl, fun m t now => rfl,
          fun m t s now hs => ?_, fun id l e => ?_⟩
  · simp [chosenId, hs]
  · simp [removeById, List.mem_filter]

/-- Witness for C10's amended theorem: the non-empty-id clause applied at
a concrete error. -/
theorem useErrorHandler_spec_witness :
    ("x" : String) ≠ "" ∧
    chosenId ⟨"m", ErrType.error, some "x"⟩ "1700" = "x" :=
  ⟨by decide, useErrorHandler_spec.2.2.1 "m" ErrType.error "x" "1700" (by decide)⟩

/-- C2: `resolve` either returns a strict descendant of the storage root
whose final component is the validated filename (which matches the exact
snapshot pattern), or fails with `InvalidFilename` or `Forbidden`; the
two traversal attempts of the claim both fail with one of those errors,
and no input ever yields a path outside the root. -/
theorem resolve_path_safety :
    (∀ (root : Path) (filename : String),
       (∃ p, resolve root filename = .ok p ∧ root <+: p ∧
             root.length < p.length ∧
             p.getLast? = some filename.toList ∧
             matchesSnapshotPattern filename = true) ∨
       resolve root filename = .error .InvalidFilename ∨
       resolve root filename = .error .Forbidden) ∧
    (∀ root : Path, resolve root "../../etc/passwd" = .error .InvalidFilename) ∧
    (∀ root : Path,
       resolve root "jobs_collection_20250101_000000.csv/../x" =
         .error .InvalidFilename) := by
  refine ⟨fun root filename => ?_, fun root => rfl, fun root => rfl⟩
  by_cases h : matchesSnapshotPattern filename = true
  · left
    have hns := matchesSnapshotPattern_no_slash filename h
    have hsplit := splitSlash_of_no_slash filename.toList hns
    have hlen : filename.toList.length = 35 := by
      rw [matchPat_length snapshotPat filename.toList h, snapshotPat_length_eq]
    have hne : filename.toList ≠ [] := by
      intro he; rw [he] at hlen; simp at hlen
    have hnd : filename.toList ≠ ['.'] := by
      intro he; rw [he] at hlen; simp at hlen
    have hndd : filename.toList ≠ ['.', '.'] := by
      intro he; rw [he] at hlen; simp at hlen
    have hstep : resolvePath root (splitSlash filename.toList) =
        root ++ [filename.toList] := by
      rw [hsplit]
      show normStep root filename.toList = root ++ [filename.toList]
      unfold normStep
      rw [if_neg (not_or.mpr ⟨hne, hnd⟩), if_neg hndd]
    refine ⟨root ++ [filename.toList], ?_, List.prefix_append _ _,
            by simp, List.getLast?_concat _, h⟩
    unfold resolve
    rw [if_pos h]
    simp only [hstep]
    rw [if_pos ⟨List.prefix_append _ _, by simp⟩]
  · right; left
    have hb : matchesSnapshotPattern filename = false := by
      revert h; cases matchesSnapshotPattern filename <;> simp
    unfold resolve
    rw [if_neg]
    rw [hb]
    exact Bool.false_ne_true

/-- The three snapshots of the C6 retention example, newest last. -/
def snapA : Snapshot := ⟨"jobs_collection_20250101_000000.csv", 1, []⟩

def snapB : Snapshot := ⟨"jobs_collection_20250102_000000.csv", 2, []⟩

def snapC : Snapshot := ⟨"jobs_collection_20250103_000000.csv", 3, []⟩

/-- C6: `applyRetention` retains exactly the files satisfying neither
deletion condition (beyond the newest `maxFiles` by embedded timestamp,
or older than the age cap — the conditions are OR'd); the retained set is
independent of the order in which the sweep examines the files; and with
`maxFiles = 2` after three sequential snapshots exactly the two newest by
embedded timestamp remain. -/
theorem applyRetention_spec :
    (∀ (maxFiles maxAge now : Nat) (files : List Snapshot) (f : Snapshot),
       f ∈ applyRetention maxFiles maxAge now files ↔
         f ∈ files ∧ beyondCap files maxFiles f = false ∧
           tooOld now maxAge f = false) ∧
    (∀ (maxFiles maxAge now : Nat) (files files' : List Snapshot),
       files.Perm files' →
       (applyRetention maxFiles maxAge now files).Perm
         (applyRetention maxFiles maxAge now files')) ∧
    applyRetention 2 1000 3 [snapA, snapB, snapC] = [snapB, snapC] := by
  refine ⟨fun maxFiles maxAge now files f => ?_,
          fun maxFiles maxAge now files files' hp => ?_, by decide⟩
  · simp [applyRetention, List.mem_filter]
  · unfold applyRetention
    have hcongr : files'.filter
        (fun f => !(beyondCap files' maxFiles f || tooOld now maxAge f)) =
        files'.filter
        (fun f => !(beyondCap files maxFiles f || tooOld now maxAge f)) := by
      apply List.filter_congr
      intro x _
      have hlen : (files.filter (fun g => x.ts < g.ts)).length =
          (files'.filter (fun g => x.ts < g.ts)).length :=
        (hp.filter _).length_eq
      simp [beyondCap, hlen]
    rw [hcongr]
    exact hp.filter _

/-- Witness for C6: the order-independence clause applied to a concrete
permutation of the three-snapshot store. -/
theorem applyRetention_spec_witness :
    ([snapA, snapB, snapC].Perm [snapC, snapA, snapB]) ∧
    (applyRetention 2 1000 3 [snapA, snapB, snapC]).Perm
      (applyRetention 2 1000 3 [snapC, snapA, snapB]) := by
  have hp : [snapA, snapB, snapC].Perm [snapC, snapA, snapB] := by
    decide
  exact ⟨hp, applyRetention_spec.2.1 2 1000 3 _ _ hp⟩

/-- C1: a `runCycle` call made while `collectionInProgress` is true
returns `AlreadyRunning` and leaves the whole system state (run state,
files, history) exactly unchanged; and because the guard is the atomic
test-and-set `tryAcquire`, in any interleaving of two entries starting
from a free state the first acquisition succeeds and the second fails, so
no two concurrent entries can both proceed past the guard. -/
theorem runCycle_alreadyRunning_guard :
    (∀ (conn : Connector) (write : Writer) (kws : List String)
       (now iv mf ma : Nat) (s : SysState),
       s.run.inProgress = true →
       runCycle conn write kws now iv mf ma s = (.error .AlreadyRunning, s)) ∧
    (∀ r : RunState, r.inProgress = false →
       (tryAcquire r).1 = true ∧ (tryAcquire (tryAcquire r).2).1 = false) := by
  constructor
  · intro conn write kws now iv mf ma s h
    unfold runCycle tryAcquire
    rw [if_pos h]
  · intro r h
    simp [tryAcquire, h]

/-- Witness for C1: the guard applied at a concrete busy state, and the
two-entry interleaving applied at a concrete free state. -/
theorem runCycle_alreadyRunning_guard_witness :
    ((⟨⟨none, 0, true⟩, [], []⟩ : SysState).run.inProgress = true ∧
     runCycle (fun _ => .ok []) (fun _ => .error "io") [] 0 0 0 0
       ⟨⟨none, 0, true⟩, [], []⟩ =
       (.error .AlreadyRunning, ⟨⟨none, 0, true⟩, [], []⟩)) ∧
    ((⟨none, 0, false⟩ : RunState).inProgress = false ∧
     (tryAcquire ⟨none, 0, false⟩).1 = true ∧
     (tryAcquire (tryAcquire ⟨none, 0, false⟩).2).1 = false) :=
  ⟨⟨rfl, runCycle_alreadyRunning_guard.1 (fun _ => .ok []) (fun _ => .error "io")
      [] 0 0 0 0 ⟨⟨none, 0, true⟩, [], []⟩ rfl⟩,
   ⟨rfl, runCycle_alreadyRunning_guard.2 ⟨none, 0, false⟩ rfl⟩⟩

/-- The three records returned for keyword `"b"` in the C3 scenario. -/
def jr1 : JobRecord := ⟨"t1", "c1", "l1", "u1", "d1", none, none, "b"⟩

def jr2 : JobRecord := ⟨"t2", "c2", "l2", "u2", "d2", none, none, "b"⟩

def jr3 : JobRecord := ⟨"t3", "c3", "l3", "u3", "d3", none, none, "b"⟩

/-- The C3 connector: raises for `"a"`, returns 3 records for any other
keyword. -/
def connC3 : Connector := fun kw =>
  if kw = "a" then .error "boom" else .ok [jr1, jr2, jr3]

/-- A storage writer that always succeeds under a fresh canonical name. -/
def writeC3 : Writer := fun _ =>
  .ok ("jobs_collection_20250101_000000.csv", 100)

/-- The idle initial system state. -/
def initState : SysState := ⟨⟨none, 0, false⟩, [], []⟩

/-- C3: a connector failure on one keyword is caught inside the cycle —
the appended history entry always carries one outcome per keyword of the
snapshot, whatever the connector does — and in the concrete scenario with
keywords `["a", "b"]` where `"a"` raises and `"b"` yields 3 records, the
history entry records the error for `"a"` and 3 jobs for `"b"`, exactly
one snapshot file exists holding only the 3 rows of `"b"`, and
`collectionInProgress` is false afterwards. -/
theorem runCycle_perKeyword_isolation :
    (∀ (conn : Connector) (write : Writer) (kws : List String)
       (now iv mf ma : Nat) (s : SysState),
       s.run.inProgress = false →
       ((runCycle conn write kws now iv mf ma s).2.history.getLast?).map
           (fun e => e.perKeyword) = some (cycleOutcomes conn kws) ∧
       (cycleOutcomes conn kws).map Prod.fst = kws) ∧
    runCycle connC3 writeC3 ["a", "b"] 100 12 30 1000 initState =
      (.ok ⟨3, [("a", .err "boom"), ("b", .ok 3)]⟩,
       { run := ⟨some 100, 112, false⟩,
         files := [⟨"jobs_collection_20250101_000000.csv", 100,
                    [jr1, jr2, jr3]⟩],
         history := [⟨.partial_, 3, [("a", .err "boom"), ("b", .ok 3)],
                      some "jobs_collection_20250101_000000.csv"⟩] }) := by
  constructor
  · intro conn write kws now iv mf ma s h
    refine ⟨?_, cycleOutcomes_keywords conn kws⟩
    unfold runCycle
    rw [show tryAcquire s.run = (true, { s.run with inProgress := true })
          from by simp [tryAcquire, h]]
    by_cases hrecs : (cycleRecords conn kws).isEmpty = true
    · rw [if_pos hrecs]
      simp [boundHistory_getLast?]
    · rw [if_neg hrecs]
      cases hw : write (cycleRecords conn kws) with
      | ok pr =>
        cases pr with
        | mk fname ts => simp [boundHistory_getLast?]
      | error m => simp [boundHistory_getLast?]
  · rfl

/-- Witness for C3: the per-keyword clause applied at the concrete C3
scenario. -/
theorem runCycle_perKeyword_isolation_witness :
    initState.run.inProgress = false ∧
    ((runCycle connC3 writeC3 ["a", "b"] 100 12 30 1000 initState).2.history.getLast?).map
        (fun e => e.perKeyword) = some (cycleOutcomes connC3 ["a", "b"]) ∧
    (cycleOutcomes connC3 ["a", "b"]).map Prod.fst = ["a", "b"] :=
  ⟨rfl, runCycle_perKeyword_isolation.1 connC3 writeC3 ["a", "b"]
     100 12 30 1000 initState rfl⟩

/-- C4: every `runCycle` execution that passes the `AlreadyRunning` guard
leaves `collectionInProgress` cleared, whatever path it takes; and when
the storage write fails the snapshot store is unchanged (no partial file
persists), the appended history entry records overall failure, and the
flag is still released. -/
theorem runCycle_release_and_storage_failure :
    (∀ (conn : Connector) (write : Writer) (kws : List String)
       (now iv mf ma : Nat) (s : SysState),
       s.run.inProgress = false →
       (runCycle conn write kws now iv mf ma s).2.run.inProgress = false) ∧
    (∀ (conn : Connector) (write : Writer) (kws : List String)
       (now iv mf ma : Nat) (s : SysState) (m : String),
       s.run.inProgress = false →
       (cycleRecords conn kws).isEmpty = false →
       write (cycleRecords conn kws) = .error m →
       runCycle conn write kws now iv mf ma s =
         (.error (.StorageFailure m),
          { run := { s.run with inProgress := false },
            files := s.files,
            history := boundHistory (s.history ++
              [⟨.failure, 0, cycleOutcomes conn kws, none⟩]) })) := by
  constructor
  · intro conn write kws now iv mf ma s h
    unfold runCycle
    rw [show tryAcquire s.run = (true, { s.run with inProgress := true })
          from by simp [tryAcquire, h]]
    by_cases hrecs : (cycleRecords conn kws).isEmpty = true
    · rw [if_pos hrecs]
    · rw [if_neg hrecs]
      cases hw : write (cycleRecords conn kws) with
      | ok pr => cases pr with | mk fname ts => rfl
      | error m => rfl
  · intro conn write kws now iv mf ma s m h hrecs hw
    unfold runCycle
    rw [show tryAcquire s.run = (true, { s.run with inProgress := true })
          from by simp [tryAcquire, h]]
    rw [if_neg (by simp [hrecs])]
    rw [hw]

/-- Witness for C4: the release clause and the storage-failure clause
applied at a concrete failing writer. -/
theorem runCycle_release_and_storage_failure_witness :
    (initState.run.inProgress = false ∧
     (runCycle connC3 writeC3 ["a", "b"] 100 12 30 1000 initState).2.run.inProgress
       = false) ∧
    ((cycleRecords connC3 ["b"]).isEmpty = false ∧
     (fun _ => .error "disk full" : Writer) (cycleRecords connC3 ["b"]) =
       .error "disk full" ∧
     runCycle connC3 (fun _ => .error "disk full") ["b"] 100 12 30 1000
       initState =
       (.error (.StorageFailure "disk full"),
        { run := { initState.run with inProgress := false },
          files := initState.files,
          history := boundHistory (initState.history ++
            [⟨.failure, 0, cycleOutcomes connC3 ["b"], none⟩]) })) :=
  ⟨⟨rfl, runCycle_release_and_storage_failure.1 connC3 writeC3 ["a", "b"]
      100 12 30 1000 initState rfl⟩,
   ⟨rfl, rfl, runCycle_release_and_storage_failure.2 connC3
      (fun _ => .error "disk full") ["b"] 100 12 30 1000 initState
      "disk full" rfl rfl rfl⟩⟩

theorem tmpName_toList (fn : String) :
    (tmpName fn).toList = fn.toList ++ ".tmp".toList := by
  show (fn ++ ".tmp").data = fn.data ++ ".tmp".data
  exact String.data_append fn ".tmp"

theorem tmp_not_canonical (fn : String)
    (h : matchesSnapshotPattern fn = true) :
    matchesSnapshotPattern (tmpName fn) = false := by
  have h1 : fn.toList.length = 35 := by
    rw [matchPat_length snapshotPat fn.toList h, snapshotPat_length_eq]
  cases h2 : matchesSnapshotPattern (tmpName fn) with
  | false => rfl
  | true =>
    exfalso
    have h3 : (tmpName fn).toList.length = 35 := by
      rw [matchPat_length snapshotPat _ h2, snapshotPat_length_eq]
    rw [tmpName_toList, List.length_append, h1] at h3
    simp at h3

/-- C5: during an atomic snapshot publish, every intermediate directory
state shows a concurrent reader either the prior visible set or the prior
set plus the one complete new file — never a partial file — because the
partial content only ever lives under the temporary name, which fails the
canonical pattern; the final state of the write sequence exposes the
complete file. -/
theorem snapshot_atomic_publish (d : List RawFile) (fn : String)
    (rows : List JobRecord) (h : matchesSnapshotPattern fn = true) :
    (∀ st ∈ writeStates d fn rows,
       visible st = visible d ∨
       visible st = visible d ++ [⟨fn, rows⟩]) ∧
    (d ++ [⟨fn, rows⟩]) ∈ writeStates d fn rows ∧
    visible (d ++ [⟨fn, rows⟩]) = visible d ++ [⟨fn, rows⟩] := by
  have htmp := tmp_not_canonical fn h
  refine ⟨?_, by simp [writeStates], ?_⟩
  · intro st hst
    simp only [writeStates, List.mem_append, List.mem_map,
      List.mem_range, List.mem_cons, List.not_mem_nil, or_false] at hst
    rcases hst with (rfl | ⟨k, hk, rfl⟩) | rfl
    · left; rfl
    · left
      simp [visible, List.filter_append, htmp]
    · right
      simp [visible, List.filter_append, h]
  · simp [visible, List.filter_append, h]

/-- Witness for C5: the atomic-publish theorem applied at an empty
directory, a canonical filename and one row. -/
theorem snapshot_atomic_publish_witness :
    matchesSnapshotPattern "jobs_collection_20250101_000000.csv" = true ∧
    visible ([] ++ [⟨"jobs_collection_20250101_000000.csv", [jr1]⟩]) =
      visible [] ++ [⟨"jobs_collection_20250101_000000.csv", [jr1]⟩] :=
  ⟨rfl, (snapshot_atomic_publish [] "jobs_collection_20250101_000000.csv"
     [jr1] rfl).2.2⟩

/-- C8: writing N records to a snapshot and previewing with
`maxRows ≥ N` returns exactly the N written rows with `hasMore = false`;
previewing with `maxRows < N` returns exactly the first `maxRows` rows
with `hasMore = true`. -/
theorem snapshot_preview_roundtrip :
    (∀ (records : List JobRecord) (maxRows : Nat),
       records.length ≤ maxRows →
       previewCsv (writeCsv records) maxRows =
         ⟨csvHeaders, records.map recordRow, records.length, false⟩) ∧
    (∀ (records : List JobRecord) (maxRows : Nat),
       maxRows < records.length →
       previewCsv (writeCsv records) maxRows =
         ⟨csvHeaders, (records.map recordRow).take maxRows,
          records.length, true⟩) := by
  constructor
  · intro records maxRows h
    unfold previewCsv writeCsv
    simp [List.take_of_length_le, h, Nat.not_lt.mpr h]
  · intro records maxRows h
    unfold previewCsv writeCsv
    simp [h]

/-- Witness for C8: the round-trip theorem applied to three records with
`maxRows = 5` and `maxRows = 2`. -/
theorem snapshot_preview_roundtrip_witness :
    ([jr1, jr2, jr3].length ≤ 5 ∧
     previewCsv (writeCsv [jr1, jr2, jr3]) 5 =
       ⟨csvHeaders, [jr1, jr2, jr3].map recordRow, 3, false⟩) ∧
    (2 < [jr1, jr2, jr3].length ∧
     previewCsv (writeCsv [jr1, jr2, jr3]) 2 =
       ⟨csvHeaders, ([jr1, jr2, jr3].map recordRow).take 2, 3, true⟩) :=
  ⟨⟨by decide, snapshot_preview_roundtrip.1 [jr1, jr2, jr3] 5 (by decide)⟩,
   ⟨by decide, snapshot_preview_roundtrip.2 [jr1, jr2, jr3] 2 (by decide)⟩⟩

/-- C9: the field extractor is a pure function whose education side takes
the first matching rule of the ordered rule list (most-specific first, so
PhD wins over a generic degree word); experience extraction recognises
the range form, the `N+ years` form and the qualifier forms normalised to
`N+ years`; the claim's concrete input yields Bachelor and 3-5 years, and
a non-matching input leaves both fields unset. -/
theorem fieldExtractor_spec :
    (∀ desc : String,
       extractEducation desc =
         (eduRules.find? (ruleMatches desc)).map Prod.snd ∧
       fieldExtract desc = (extractEducation desc, extractExperience desc)) ∧
    fieldExtract "Requires a Bachelor\x27s degree and 3-5 years of experience" =
      (some "Bachelor\x27s Degree", some "3-5 years") ∧
    fieldExtract "We are looking for a great teammate" = (none, none) ∧
    extractExperience "minimum of 3 years required" = some "3+ years" ∧
    extractExperience "at least 5 years required" = some "5+ years" ∧
    extractExperience "5+ years of experience" = some "5+ years" ∧
    extractEducation "PhD or Bachelor accepted" = some "PhD" :=
  ⟨fun _ => ⟨rfl, rfl⟩, rfl, rfl, rfl, rfl, rfl, rfl⟩

end JobAgg
